import Mathlib

/-!
Verification of the operation-preparation protocol, the gradient broadcast
reduction, and the tiled output-write kernel of the repository.

The autodiff part embeds `src/burn-autodiff/src/ops/base.rs`; the kernel part
embeds `src/crates/burn-jit/src/kernel/matmul/tiling2d_cube/write_output.rs`.
Types that the source only declares elsewhere (the graph node vocabulary, the
tensor wrapper) are modelled from the specification and marked as such.
-/

namespace Autodiff

/-- Modelled from the spec: a `Requirement` is "tracked vs none — whether
gradients must flow through" a node (spec §3). -/
inductive Requirement where
  | none
  | tracked
deriving DecidableEq, Repr

/-- Modelled from the spec: `is_none` holds exactly on the `none` requirement
(the aggregate requirement is "none" when no parent requires gradients). -/
def Requirement.is_none : Requirement → Bool
  | .none => true
  | .tracked => false

/-- `ComputingProperty` from the graph vocabulary: `ComputeBound`, `Ambiguous`
or `MemoryBound { retro_forward }`.  The `retro_forward` recomputation
procedure is opaque to this file and is modelled by a numeric handle. -/
inductive ComputingProperty where
  | computeBound
  | ambiguous
  | memoryBound (retro_forward : Nat)
deriving DecidableEq, Repr

/-- Modelled from the spec: a node has an identity (`NodeID`, here a `Nat`),
a `Requirement` and a `ComputingProperty` (spec §3).  `NodeRef` is a shared
reference to a node; cloning is structure sharing, so it is the node itself. -/
structure NodeRef where
  id : Nat
  requirement : Requirement
  properties : ComputingProperty
deriving DecidableEq, Repr

/-- Modelled from the spec: a parent "is referenced only if it itself requires
grad" (spec §4.1 (a)); this is `NodeRef::clone_if_require_grad`. -/
def NodeRef.clone_if_require_grad (n : NodeRef) : Option NodeRef :=
  if n.requirement.is_none then Option.none else some n

/-- `CheckpointingAction` from `base.rs`: either a value snapshot (`Compute`)
or a recomputation recipe (`Recompute`).  The snapshot `state_content` is the
forward primitive, of type `α`; the recipe is the node's `retro_forward`
handle. -/
inductive CheckpointingAction (α : Type u) where
  | compute (node_ref : NodeRef) (state_content : α)
  | recompute (node_ref : NodeRef) (retro_forward : Nat)
deriving DecidableEq, Repr

/-- `CheckpointingAction::id` from `base.rs`: the identity of the action's
node, for either variant. -/
def CheckpointingAction.id : CheckpointingAction α → Nat
  | .compute node_ref _ => node_ref.id
  | .recompute node_ref _ => node_ref.id

/-- `Ops<S, N>` from `base.rs`: up to `N` optional parent node references, the
operation's own node, and the backward state. -/
structure Ops (S : Type u) (N : Nat) where
  parents : Fin N → Option NodeRef
  node : NodeRef
  state : S

/-- A backward `Step`, keyed by the node it produces.  `G` is the gradients
map and `C` the checkpointer; running the step transforms both.  This is the
type-erased interface object of the graph (spec §9). -/
structure StepObj (G : Type u) (C : Type v) where
  node : NodeRef
  step : G → C → G × C

/-- Modelled from the spec: a graph is an append-only record of the backward
steps registered while building it (spec §3); merging parents' graphs is
modelled by concatenation in parent order. -/
def mergeGraphs {N : Nat} (graphs : Fin N → List (StepObj G C)) :
    List (StepObj G C) :=
  (List.ofFn graphs).flatten

/-- Modelled from the spec: the tensor wrapper holding the forward primitive,
its own node, its graph, and the two checkpointing-action buffers handed over
at `finish` time. -/
structure AutodiffTensor (α : Type u) (G : Type v) (C : Type w) where
  primitive : α
  node : NodeRef
  graph : List (StepObj G C)
  decided_actions : List (CheckpointingAction α)
  unsure_actions : List (CheckpointingAction α)

/-- Modelled from the spec: `AutodiffTensor::from_parents` "constructs the
output node purely from parents' graphs and the chosen compute property;
registers no backward step" (spec §4.1).  The fresh node identity `nid` is
supplied by the caller (the source draws it from an ID generator). -/
def AutodiffTensor.from_parents (output : α) (_nodes : Fin N → NodeRef)
    (graphs : Fin N → List (StepObj G C)) (requirement : Requirement)
    (compute_property : ComputingProperty)
    (checkpointing_actions unsure_checkpointing_actions :
      List (CheckpointingAction α)) (nid : Nat) : AutodiffTensor α G C :=
  { primitive := output
    node := ⟨nid, requirement, compute_property⟩
    graph := mergeGraphs graphs
    decided_actions := checkpointing_actions
    unsure_actions := unsure_checkpointing_actions }

/-- Modelled from the spec: `register_step` appends one backward step to the
output tensor's graph (spec §4.1 (c)). -/
def AutodiffTensor.register_step (t : AutodiffTensor α G C)
    (s : StepObj G C) : AutodiffTensor α G C :=
  { t with graph := t.graph ++ [s] }

/-- `OpsPrep` from `base.rs`: an operation in preparation, of arity `N`, with
backward state type `S`, primitive type `α`, gradients type `G` and
checkpointer type `C`.  The `Mode` marker types of the source are type-state
only and carry no data, so a single structure models every mode. -/
structure OpsPrep (S : Type u) (N : Nat) (α : Type v) (G : Type w)
    (C : Type x) where
  nodes : Fin N → NodeRef
  graphs : Fin N → List (StepObj G C)
  requirement : Requirement
  backward : Ops S N → G → C → G × C
  compute_property : ComputingProperty
  checkpointing_actions : List (CheckpointingAction α)
  unsure_checkpointing_actions : List (CheckpointingAction α)

/-- `OpsKind` from `base.rs`: the classification produced by `stateful`. -/
inductive OpsKind (S : Type u) (N : Nat) (α : Type v) (G : Type w)
    (C : Type x) where
  | tracked (prep : OpsPrep S N α G C)
  | unTracked (prep : OpsPrep S N α G C)

/-- Whether an `OpsKind` is the `Tracked` variant. -/
def OpsKind.isTracked : OpsKind S N α G C → Bool
  | .tracked _ => true
  | .unTracked _ => false

/-- `OpsPrep::stateful` from `base.rs`: branch on `requirement.is_none()`;
`false` yields `Tracked`, `true` yields `UnTracked`, all fields carried over
unchanged. -/
def OpsPrep.stateful (p : OpsPrep S N α G C) : OpsKind S N α G C :=
  match p.requirement.is_none with
  | false => .tracked ⟨p.nodes, p.graphs, p.requirement, p.backward,
      p.compute_property, p.checkpointing_actions,
      p.unsure_checkpointing_actions⟩
  | true => .unTracked ⟨p.nodes, p.graphs, p.requirement, p.backward,
      p.compute_property, p.checkpointing_actions,
      p.unsure_checkpointing_actions⟩

/-- `OpsPrep::<UnTracked>::finish` from `base.rs`: build the output tensor
from the parents and return it; no step is registered. -/
def OpsPrep.finishUnTracked (p : OpsPrep S N α G C) (output : α)
    (nid : Nat) : AutodiffTensor α G C :=
  AutodiffTensor.from_parents output p.nodes p.graphs p.requirement
    p.compute_property p.checkpointing_actions
    p.unsure_checkpointing_actions nid

/-- `OpsStep::new` from `base.rs` together with its `Step` impl: running the
step calls the operation's backward function with the stored `Ops`, the
gradients and the checkpointer; `node()` returns the ops' own node. -/
def OpsStep (ops : Ops S N) (backward : Ops S N → G → C → G × C) :
    StepObj G C :=
  { node := ops.node
    step := fun grads checkpointer => backward ops grads checkpointer }

/-- `OpsPrep::<Tracked>::finish` from `base.rs`: build the output tensor,
derive the optional parent references with `clone_if_require_grad`, package
parents + own node + state into an `Ops`, and register an `OpsStep` holding
that `Ops` and the backward functor. -/
def OpsPrep.finishTracked (p : OpsPrep S N α G C) (state : S) (output : α)
    (nid : Nat) : AutodiffTensor α G C :=
  let out := AutodiffTensor.from_parents output p.nodes p.graphs
    p.requirement p.compute_property p.checkpointing_actions
    p.unsure_checkpointing_actions nid
  let parents := fun i => (p.nodes i).clone_if_require_grad
  let ops : Ops S N := ⟨parents, out.node, state⟩
  out.register_step (OpsStep ops p.backward)

/-- `OpsPrep::<Tracked>::checkpoint` from `base.rs`: push a `Compute` action
(snapshot of the primitive) for a `ComputeBound`/`Ambiguous` node, or a
`Recompute` action (sharing the node's `retro_forward`) for a `MemoryBound`
node, onto the decided buffer; return the node's identity. -/
def OpsPrep.checkpoint (p : OpsPrep S N α G C)
    (tensor : AutodiffTensor α G C) : Nat × OpsPrep S N α G C :=
  let p' :=
    match tensor.node.properties with
    | .computeBound | .ambiguous =>
        { p with checkpointing_actions := p.checkpointing_actions ++
            [CheckpointingAction.compute tensor.node tensor.primitive] }
    | .memoryBound retro_forward =>
        { p with checkpointing_actions := p.checkpointing_actions ++
            [CheckpointingAction.recompute tensor.node retro_forward] }
  (tensor.node.id, p')

/-- `OpsPrep::<Tracked>::might_need` from `base.rs`: identical classification
to `checkpoint`, but pushing onto the unsure buffer. -/
def OpsPrep.might_need (p : OpsPrep S N α G C)
    (tensor : AutodiffTensor α G C) : Nat × OpsPrep S N α G C :=
  let p' :=
    match tensor.node.properties with
    | .computeBound | .ambiguous =>
        { p with unsure_checkpointing_actions :=
            p.unsure_checkpointing_actions ++
            [CheckpointingAction.compute tensor.node tensor.primitive] }
    | .memoryBound retro_forward =>
        { p with unsure_checkpointing_actions :=
            p.unsure_checkpointing_actions ++
            [CheckpointingAction.recompute tensor.node retro_forward] }
  (tensor.node.id, p')

end Autodiff

namespace Autodiff

/-- Modelled from the spec: the backend's primitive float tensor, reduced to
what the broadcast reduction needs — a shape query and the values.  A rank-`D`
tensor has one extent per dimension and integer-valued entries indexed by a
multi-index (spec §6: "shape query, elementwise-sum-along-dimension"). -/
structure ADTensor (D : Nat) where
  dims : Fin D → Nat
  data : (Fin D → Nat) → Int

/-- Modelled from the spec: the backend's `float_sum_dim` — "the gradient is
summed along that dimension, collapsing it back to size 1" (spec §4.3). -/
def float_sum_dim (t : ADTensor D) (i : Fin D) : ADTensor D where
  dims := Function.update t.dims i 1
  data := fun idx => ∑ k in Finset.range (t.dims i),
    t.data (Function.update idx i k)

/-- The panic payload of `broadcast_shape`: the diagnostic names the target
(next-grad) shape and the incoming gradient's shape, in that order, exactly
as the `panic!` message in `base.rs` interpolates them. -/
structure BroadcastDiag (D : Nat) where
  next_shape : Fin D → Nat
  previous_shape : Fin D → Nat

/-- The loop body of `broadcast_shape` from `base.rs`, one dimension at a
time.  `shape_grad` is the gradient shape captured *before* the loop (as the
source does); the conditions test it, not the partially reduced tensor. -/
def broadcastGo (shape shape_grad : Fin D → Nat) :
    List (Fin D) → ADTensor D → Except (BroadcastDiag D) (ADTensor D)
  | [], grad => .ok grad
  | i :: rest, grad =>
    if shape_grad i ≠ shape i then
      if shape i ≠ 1 then .error ⟨shape, shape_grad⟩
      else broadcastGo shape shape_grad rest (float_sum_dim grad i)
    else broadcastGo shape shape_grad rest grad

/-- `broadcast_shape` from `base.rs`: for `i in 0..D`, if the gradient extent
differs from the target extent then either panic (target extent not 1) or sum
the gradient along dimension `i`. -/
def broadcast_shape (grad : ADTensor D) (shape : Fin D → Nat) :
    Except (BroadcastDiag D) (ADTensor D) :=
  broadcastGo shape grad.dims (List.finRange D) grad

end Autodiff

namespace Tiling2d

/-- `CubeTiling2dConfig` restricted to the fields `write_output.rs` reads:
tile size, loop unrolling, and the two bounds-check flags. -/
structure CubeTiling2dConfig where
  tile_size : Nat
  unroll : Bool
  check_m_bounds : Bool
  check_n_bounds : Bool
deriving DecidableEq, Repr

/-- The output tensor handle as the kernel sees it: the extent at rank-2
(`dim_m`), the extent at rank-1 (`dim_n`), and the comptime vectorization
factor of the handle (`Comptime::vectorization(out)`). -/
structure OutTensor where
  dim_m : Nat
  dim_n : Nat
  vec : Nat
deriving DecidableEq, Repr

/-- One store instruction issued by the kernel: the storage index used on the
left of the assignment, the width of the stored element (1 for a scalar
store, the vectorization factor for a vectorized store), and the lane
values.  Storage index `idx` at width `w` covers the scalar cells
`idx * w + j` for `j < w`. -/
structure Store where
  idx : Nat
  width : Nat
  lanes : List Int
deriving DecidableEq, Repr

/-- The scalar cells covered by a store. -/
def Store.positions (s : Store) : List Nat :=
  (List.range s.width).map (fun j => s.idx * s.width + j)

/-- Apply one store to a flat scalar buffer. -/
def applyStore (buf : Nat → Int) (s : Store) : Nat → Int := fun q =>
  if s.idx * s.width ≤ q ∧ q < s.idx * s.width + s.width then
    s.lanes.getD (q - s.idx * s.width) (buf q)
  else buf q

/-- Apply a sequence of stores in order (later stores win). -/
def applyStores (buf : Nat → Int) (l : List Store) : Nat → Int :=
  l.foldl applyStore buf

/-- `write_within_vector` from `write_output.rs`.  With vectorization 1 it
issues the scalar store `out[i + out_position] = results[results_pos_m + i]`;
otherwise it gathers `v` lanes `results[results_pos_m + (i * v + j)]` and
issues one vectorized store at storage index `i + out_position / v`. -/
def write_within_vector (v i out_position : Nat) (results : Nat → Int)
    (results_pos_m : Nat) : List Store :=
  if v = 1 then
    [⟨i + out_position, 1, [results (results_pos_m + i)]⟩]
  else
    [⟨i + out_position / v, v,
      (List.range v).map (fun j => results (results_pos_m + (i * v + j)))⟩]

/-- `write_results_inner_loop` from `write_output.rs`.  Computes
`results_pos_m = res_idx_m * tile_size` and
`out_position = (row + res_idx_m) * out_stride_row + col + offset_output`;
with column bounds checked it runs `num_loops = (min (dim_n - col) tile_size)
/ v` vector groups when `dim_n > col` (else none), otherwise the full
`tile_size / v` groups. -/
def write_results_inner_loop (out : OutTensor) (results : Nat → Int)
    (res_idx_m row col offset_output out_stride_row : Nat)
    (config : CubeTiling2dConfig) : List Store :=
  let tile_size := config.tile_size
  let results_pos_m := res_idx_m * tile_size
  let out_position := (row + res_idx_m) * out_stride_row + col + offset_output
  if config.check_n_bounds then
    let num_loops : Nat :=
      if out.dim_n > col then (min (out.dim_n - col) tile_size) / out.vec
      else 0
    (List.range num_loops).flatMap (fun i =>
      write_within_vector out.vec i out_position results results_pos_m)
  else
    (List.range (tile_size / out.vec)).flatMap (fun i =>
      write_within_vector out.vec i out_position results results_pos_m)

/-- `write_results` from `write_output.rs`.  With `tile_size = 1` a single
element is stored at storage index
`(row * out_stride_row + col + offset_output) / v` (the lane content of that
store is `results[0]`, modelled as filling the stored element); with row
bounds checked it runs the inner loop for `num_writes = min (dim_m - row)
tile_size` rows when `dim_m > row` (else none), otherwise for the full
`tile_size` rows. -/
def write_results (out : OutTensor) (results : Nat → Int)
    (row col offset_output out_stride_row : Nat)
    (config : CubeTiling2dConfig) : List Store :=
  let tile_size := config.tile_size
  if tile_size = 1 then
    [⟨(row * out_stride_row + col + offset_output) / out.vec, out.vec,
      (List.range out.vec).map (fun _ => results 0)⟩]
  else if config.check_m_bounds then
    let num_writes : Nat :=
      if out.dim_m > row then min (out.dim_m - row) tile_size else 0
    (List.range num_writes).flatMap (fun res_idx_m =>
      write_results_inner_loop out results res_idx_m row col offset_output
        out_stride_row config)
  else
    (List.range tile_size).flatMap (fun res_idx_m =>
      write_results_inner_loop out results res_idx_m row col offset_output
        out_stride_row config)

/-- A scalar cell `q` lies inside the true output extents: it is
`offset + r * stride + c` for an in-extent row `r < dim_m` and an in-extent
column `c < dim_n`. -/
def InExtent (out : OutTensor) (offset_output out_stride_row q : Nat) :
    Prop :=
  ∃ r ∈ Finset.range out.dim_m, ∃ c ∈ Finset.range out.dim_n,
    q = offset_output + r * out_stride_row + c

instance (out : OutTensor) (offset_output out_stride_row q : Nat) :
    Decidable (InExtent out offset_output out_stride_row q) := by
  unfold InExtent; infer_instance

end Tiling2d

namespace Autodiff

/-- The checkpointing action that both `checkpoint` and `might_need` build for
a referenced tensor, from the shared classification match in `base.rs`:
`ComputeBound`/`Ambiguous` nodes yield a `Compute` snapshot of the primitive,
`MemoryBound` nodes yield a `Recompute` sharing the node's procedure. -/
def classifiedAction (tensor : AutodiffTensor α G C) :
    CheckpointingAction α :=
  match tensor.node.properties with
  | .computeBound => .compute tensor.node tensor.primitive
  | .ambiguous => .compute tensor.node tensor.primitive
  | .memoryBound retro_forward => .recompute tensor.node retro_forward

/-- Claim C1: for every operation preparation of any arity, `stateful`
classifies as `Tracked` exactly when the aggregate requirement is not none;
the untracked `finish` returns an output whose graph is just the merge of the
parents' graphs (no backward step registered), while the tracked `finish`
grows the merged graph by exactly one registered backward step. -/
theorem tracked_iff_requirement_not_none
    {S : Type u} {α : Type v} {G : Type w} {C : Type x} {N : Nat}
    (p : OpsPrep S N α G C) (state : S) (output : α) (nid : Nat) :
    (p.stateful.isTracked = !p.requirement.is_none)
    ∧ ((p.finishUnTracked output nid).graph = mergeGraphs p.graphs)
    ∧ ((p.finishTracked state output nid).graph.length
        = (mergeGraphs p.graphs).length + 1) := by
  refine ⟨?_, rfl, ?_⟩
  · cases h : p.requirement.is_none <;>
      simp [OpsPrep.stateful, h, OpsKind.isTracked]
  · simp [OpsPrep.finishTracked, AutodiffTensor.register_step,
      AutodiffTensor.from_parents]

/-- Claim C8: the tracked `finish` registers exactly the step built from the
`Ops` whose parent slot `i` is `some` of parent `i` precisely when that
parent requires gradients (`clone_if_require_grad`), whose node is the
output's own node, and whose state is the given state; invoking any
registered `OpsStep` calls the backward function with exactly that `Ops`,
the gradients and the checkpointer. -/
theorem tracked_finish_step_payload
    {S : Type u} {α : Type v} {G : Type w} {C : Type x} {N : Nat}
    (p : OpsPrep S N α G C) (state : S) (output : α) (nid : Nat) :
    ((p.finishTracked state output nid).graph
      = mergeGraphs p.graphs
        ++ [OpsStep
              ⟨fun i => (p.nodes i).clone_if_require_grad,
               (p.finishTracked state output nid).node, state⟩ p.backward])
    ∧ (∀ i : Fin N,
        ((p.nodes i).clone_if_require_grad = some (p.nodes i)
          ↔ (p.nodes i).requirement.is_none = false)
        ∧ ((p.nodes i).clone_if_require_grad = Option.none
          ↔ (p.nodes i).requirement.is_none = true))
    ∧ ((p.finishTracked state output nid).node
        = ⟨nid, p.requirement, p.compute_property⟩)
    ∧ (∀ (ops : Ops S N) (grads : G) (checkpointer : C),
        (OpsStep ops p.backward).step grads checkpointer
          = p.backward ops grads checkpointer
        ∧ (OpsStep ops p.backward).node = ops.node) := by
  refine ⟨rfl, fun i => ⟨?_, ?_⟩, rfl, fun ops grads checkpointer => ⟨rfl, rfl⟩⟩
  · cases h : (p.nodes i).requirement.is_none <;>
      simp [NodeRef.clone_if_require_grad, h]
  · cases h : (p.nodes i).requirement.is_none <;>
      simp [NodeRef.clone_if_require_grad, h]

/-- Claim C9: `checkpoint` appends the classified action (a `Compute`
snapshot of the primitive for `ComputeBound`/`Ambiguous` nodes, a `Recompute`
sharing the node's procedure for `MemoryBound` nodes) to the decided buffer
and leaves the unsure buffer alone; `might_need` appends the identically
classified action to the unsure buffer and leaves the decided buffer alone;
both return the referenced node's id, which equals the appended action's
node identity. -/
theorem checkpoint_actions_classification
    {S : Type u} {α : Type v} {G : Type w} {C : Type x} {N : Nat}
    (p : OpsPrep S N α G C) (tensor : AutodiffTensor α G C) :
    ((p.checkpoint tensor).2.checkpointing_actions
      = p.checkpointing_actions ++ [classifiedAction tensor])
    ∧ ((p.checkpoint tensor).2.unsure_checkpointing_actions
      = p.unsure_checkpointing_actions)
    ∧ ((p.might_need tensor).2.unsure_checkpointing_actions
      = p.unsure_checkpointing_actions ++ [classifiedAction tensor])
    ∧ ((p.might_need tensor).2.checkpointing_actions
      = p.checkpointing_actions)
    ∧ ((p.checkpoint tensor).1 = tensor.node.id)
    ∧ ((p.might_need tensor).1 = tensor.node.id)
    ∧ ((classifiedAction tensor).id = tensor.node.id)
    ∧ (∀ (prim : α) (i : Nat) (req : Requirement)
        (graph : List (StepObj G C))
        (d u : List (CheckpointingAction α)) (retro : Nat),
        (classifiedAction
            (⟨prim, ⟨i, req, .computeBound⟩, graph, d, u⟩ :
              AutodiffTensor α G C)
          = .compute ⟨i, req, .computeBound⟩ prim)
        ∧ (classifiedAction
            (⟨prim, ⟨i, req, .ambiguous⟩, graph, d, u⟩ :
              AutodiffTensor α G C)
          = .compute ⟨i, req, .ambiguous⟩ prim)
        ∧ (classifiedAction
            (⟨prim, ⟨i, req, .memoryBound retro⟩, graph, d, u⟩ :
              AutodiffTensor α G C)
          = .recompute ⟨i, req, .memoryBound retro⟩ retro)) := by
  refine ⟨?_, ?_, ?_, ?_, ?_, ?_, ?_, ?_⟩
  · cases h : tensor.node.properties <;>
      simp [OpsPrep.checkpoint, classifiedAction, h]
  · cases h : tensor.node.properties <;> simp [OpsPrep.checkpoint, h]
  · cases h : tensor.node.properties <;>
      simp [OpsPrep.might_need, classifiedAction, h]
  · cases h : tensor.node.properties <;> simp [OpsPrep.might_need, h]
  · rfl
  · rfl
  · cases h : tensor.node.properties <;>
      simp [classifiedAction, CheckpointingAction.id, h]
  · exact fun prim i req graph d u retro => ⟨rfl, rfl, rfl⟩

end Autodiff

namespace Autodiff

lemma broadcastGo_ok_of_agree {D : Nat} (shape shape_grad : Fin D → Nat)
    (L : List (Fin D)) :
    ∀ (g : ADTensor D), (∀ i ∈ L, shape_grad i = shape i) →
      broadcastGo shape shape_grad L g = .ok g := by
  induction L with
  | nil => intro g _; rfl
  | cons i rest ih =>
      intro g h
      have hi : shape_grad i = shape i := h i (List.mem_cons_self i rest)
      rw [broadcastGo, if_neg (by simp [hi])]
      exact ih g (fun j hj => h j (List.mem_cons_of_mem i hj))

lemma broadcastGo_eq_foldl {D : Nat} (shape shape_grad : Fin D → Nat)
    (L : List (Fin D)) :
    ∀ (g : ADTensor D), (∀ i ∈ L, shape_grad i = shape i ∨ shape i = 1) →
      broadcastGo shape shape_grad L g
        = .ok ((L.filter (fun i => shape_grad i != shape i)).foldl
            float_sum_dim g) := by
  induction L with
  | nil => intro g _; rfl
  | cons i rest ih =>
      intro g h
      have hrest : ∀ j ∈ rest, shape_grad j = shape j ∨ shape j = 1 :=
        fun j hj => h j (List.mem_cons_of_mem i hj)
      by_cases hi : shape_grad i = shape i
      · rw [broadcastGo, if_neg (by simp [hi]), List.filter_cons,
          if_neg (by simp [hi])]
        exact ih g hrest
      · have h1 : shape i = 1 := by
          rcases h i (List.mem_cons_self i rest) with h' | h'
          · exact absurd h' hi
          · exact h'
        rw [broadcastGo, if_pos hi, if_neg (by simp [h1]), List.filter_cons,
          if_pos (by simp [hi]), List.foldl_cons]
        exact ih (float_sum_dim g i) hrest

lemma broadcastGo_error {D : Nat} (shape shape_grad : Fin D → Nat)
    (L : List (Fin D)) :
    ∀ (g : ADTensor D) (i : Fin D), i ∈ L → shape_grad i ≠ shape i →
      shape i ≠ 1 →
      broadcastGo shape shape_grad L g = .error ⟨shape, shape_grad⟩ := by
  induction L with
  | nil => intro g i hi _ _; exact absurd hi (List.not_mem_nil i)
  | cons j rest ih =>
      intro g i hi h1 h2
      by_cases hj : shape_grad j = shape j
      · have hir : i ∈ rest := by
          rcases List.mem_cons.mp hi with h | h
          · exact absurd (h ▸ hj) h1
          · exact h
        rw [broadcastGo, if_neg (by simp [hj])]
        exact ih g i hir h1 h2
      · by_cases hj1 : shape j = 1
        · have hir : i ∈ rest := by
            rcases List.mem_cons.mp hi with h | h
            · exact absurd (h ▸ hj1) h2
            · exact h
          rw [broadcastGo, if_pos hj, if_neg (by simp [hj1])]
          exact ih (float_sum_dim g j) i hir h1 h2
        · rw [broadcastGo, if_pos hj, if_pos hj1]

/-- Claim C10: when the gradient's shape already equals the target shape in
every dimension, `broadcast_shape` returns the very same gradient tensor:
no dimension is summed and no panic is possible. -/
theorem broadcast_shape_identity_on_equal_shapes {D : Nat}
    (grad : ADTensor D) (shape : Fin D → Nat) (h : grad.dims = shape) :
    broadcast_shape grad shape = .ok grad :=
  broadcastGo_ok_of_agree shape grad.dims (List.finRange D) grad
    (fun i _ => by rw [h])

/-- Witness for C10 at a concrete rank-2 tensor of shape `[2, 3]`. -/
theorem broadcast_shape_identity_witness :
    broadcast_shape
        (ADTensor.mk (D := 2) ![2, 3] (fun idx => (idx 0 : Int) + idx 1))
        ![2, 3]
      = .ok (ADTensor.mk ![2, 3] (fun idx => (idx 0 : Int) + idx 1)) :=
  broadcast_shape_identity_on_equal_shapes _ _ rfl

/-- Claim C3: whenever some dimension's gradient extent differs from the
target extent and the target extent there is not 1, `broadcast_shape` aborts
with the panic diagnostic carrying the offending shapes (the target shape
and the incoming gradient shape); it returns no partial result. -/
theorem broadcast_shape_error_on_invalid {D : Nat}
    (grad : ADTensor D) (shape : Fin D → Nat)
    (h : ∃ i, grad.dims i ≠ shape i ∧ shape i ≠ 1) :
    broadcast_shape grad shape = .error ⟨shape, grad.dims⟩ := by
  obtain ⟨i, h1, h2⟩ := h
  exact broadcastGo_error shape grad.dims (List.finRange D) grad i
    (List.mem_finRange i) h1 h2

/-- Witness for C3: grad shape `[2, 3, 4]` against target `[2, 2, 4]`
(mismatch at dimension 1 with target extent 2, not 1) aborts. -/
theorem broadcast_shape_error_witness :
    (∃ i, (ADTensor.mk (D := 3) ![2, 3, 4] (fun _ => (0 : Int))).dims i
        ≠ (![2, 2, 4] : Fin 3 → Nat) i ∧ (![2, 2, 4] : Fin 3 → Nat) i ≠ 1)
    ∧ broadcast_shape (ADTensor.mk (D := 3) ![2, 3, 4] (fun _ => (0 : Int)))
        ![2, 2, 4]
      = .error ⟨![2, 2, 4], ![2, 3, 4]⟩ :=
  ⟨by decide, broadcast_shape_error_on_invalid _ _ (by decide)⟩

end Autodiff

namespace Autodiff

lemma update_vec3_zero (a b c x : Nat) :
    Function.update (![a, b, c]) (0 : Fin 3) x = ![x, b, c] := by
  funext i; fin_cases i <;> simp [Function.update]

lemma update_vec3_two (a b c x : Nat) :
    Function.update (![a, b, c]) (2 : Fin 3) x = ![a, b, x] := by
  funext i; fin_cases i <;> simp [Function.update]

/-- Claim C2: for compatible shapes (each dimension equal or target extent 1)
`broadcast_shape` succeeds and sums the gradient along exactly the mismatched
dimensions, in order from dimension 0 upward; concretely, a gradient of shape
`[2,3,4]` reduced to `[1,3,4]` has entry `(0,i,j)` equal to the sum over the
first axis, and a gradient of shape `[2,3,4]` reduced to `[1,3,1]` is summed
along both axis 0 and axis 2. -/
theorem broadcast_shape_sums_mismatched_dims :
    (∀ (D : Nat) (grad : ADTensor D) (shape : Fin D → Nat),
      (∀ i, grad.dims i = shape i ∨ shape i = 1) →
      broadcast_shape grad shape
        = .ok (((List.finRange D).filter
            (fun i => grad.dims i != shape i)).foldl float_sum_dim grad))
    ∧ (∀ g : ADTensor 3, g.dims = ![2, 3, 4] →
        ∃ r, broadcast_shape g ![1, 3, 4] = .ok r ∧ r.dims = ![1, 3, 4] ∧
          ∀ i j : Nat, r.data ![0, i, j]
            = ∑ k in Finset.range 2, g.data ![k, i, j])
    ∧ (∀ g : ADTensor 3, g.dims = ![2, 3, 4] →
        ∃ r, broadcast_shape g ![1, 3, 1] = .ok r ∧ r.dims = ![1, 3, 1] ∧
          ∀ i : Nat, r.data ![0, i, 0]
            = ∑ k in Finset.range 2, ∑ l in Finset.range 4,
                g.data ![k, i, l]) := by
  refine ⟨?_, ?_, ?_⟩
  · intro D grad shape h
    exact broadcastGo_eq_foldl shape grad.dims (List.finRange D) grad
      (fun i _ => h i)
  · intro g hd
    have hfr : List.finRange 3 = [0, 1, 2] := by decide
    have h0 : g.dims 0 = 2 := by simp [hd]
    refine ⟨float_sum_dim g 0, ?_, ?_, ?_⟩
    · unfold broadcast_shape
      rw [hd, hfr]
      rw [broadcastGo,
        if_pos (by decide : (![2,3,4] : Fin 3 → Nat) 0 ≠ (![1,3,4] : Fin 3 → Nat) 0),
        if_neg (by decide : ¬((![1,3,4] : Fin 3 → Nat) 0 ≠ 1))]
      rw [broadcastGo,
        if_neg (by decide : ¬((![2,3,4] : Fin 3 → Nat) 1 ≠ (![1,3,4] : Fin 3 → Nat) 1))]
      rw [broadcastGo,
        if_neg (by decide : ¬((![2,3,4] : Fin 3 → Nat) 2 ≠ (![1,3,4] : Fin 3 → Nat) 2))]
      rw [broadcastGo]
    · simp only [float_sum_dim]
      rw [hd]
      exact update_vec3_zero 2 3 4 1
    · intro i j
      simp only [float_sum_dim, h0]
      exact Finset.sum_congr rfl (fun k _ => by rw [update_vec3_zero])
  · intro g hd
    have hfr : List.finRange 3 = [0, 1, 2] := by decide
    have h0 : g.dims 0 = 2 := by simp [hd]
    have hs1 : (float_sum_dim g 0).dims = ![1, 3, 4] := by
      simp only [float_sum_dim]
      rw [hd]
      exact update_vec3_zero 2 3 4 1
    have hs12 : (float_sum_dim g 0).dims 2 = 4 := by simp [hs1]
    refine ⟨float_sum_dim (float_sum_dim g 0) 2, ?_, ?_, ?_⟩
    · unfold broadcast_shape
      rw [hd, hfr]
      rw [broadcastGo,
        if_pos (by decide : (![2,3,4] : Fin 3 → Nat) 0 ≠ (![1,3,1] : Fin 3 → Nat) 0),
        if_neg (by decide : ¬((![1,3,1] : Fin 3 → Nat) 0 ≠ 1))]
      rw [broadcastGo,
        if_neg (by decide : ¬((![2,3,4] : Fin 3 → Nat) 1 ≠ (![1,3,1] : Fin 3 → Nat) 1))]
      rw [broadcastGo,
        if_pos (by decide : (![2,3,4] : Fin 3 → Nat) 2 ≠ (![1,3,1] : Fin 3 → Nat) 2),
        if_neg (by decide : ¬((![1,3,1] : Fin 3 → Nat) 2 ≠ 1))]
      rw [broadcastGo]
    · show Function.update (float_sum_dim g 0).dims 2 1 = ![1, 3, 1]
      rw [hs1]
      exact update_vec3_two 1 3 4 1
    · intro i
      have hinner : ∀ l : Nat,
          (float_sum_dim g 0).data (Function.update (![0, i, 0]) (2 : Fin 3) l)
            = ∑ k in Finset.range 2, g.data ![k, i, l] := by
        intro l
        rw [update_vec3_two 0 i 0 l]
        show (∑ k in Finset.range (g.dims 0),
            g.data (Function.update (![0, i, l]) (0 : Fin 3) k)) = _
        rw [h0]
        exact Finset.sum_congr rfl (fun k _ => by rw [update_vec3_zero])
      show (∑ l in Finset.range ((float_sum_dim g 0).dims 2),
          (float_sum_dim g 0).data
            (Function.update (![0, i, 0]) (2 : Fin 3) l)) = _
      rw [hs12]
      calc (∑ l in Finset.range 4,
            (float_sum_dim g 0).data
              (Function.update (![0, i, 0]) (2 : Fin 3) l))
          = ∑ l in Finset.range 4, ∑ k in Finset.range 2,
              g.data ![k, i, l] :=
            Finset.sum_congr rfl (fun l _ => hinner l)
        _ = ∑ k in Finset.range 2, ∑ l in Finset.range 4,
              g.data ![k, i, l] := Finset.sum_comm

/-- Witness for C2 at the concrete gradient tensor of shape `[2, 3, 4]` with
entries `idx 0`, reduced to `[1, 3, 4]` and to `[1, 3, 1]`. -/
theorem broadcast_shape_sums_witness :
    ((∀ i, (⟨![2, 3, 4], fun idx => (idx 0 : Int)⟩ : ADTensor 3).dims i
          = (![1, 3, 4] : Fin 3 → Nat) i ∨ (![1, 3, 4] : Fin 3 → Nat) i = 1)
      ∧ broadcast_shape
          (⟨![2, 3, 4], fun idx => (idx 0 : Int)⟩ : ADTensor 3) ![1, 3, 4]
        = .ok (((List.finRange 3).filter
            (fun i =>
              (⟨![2, 3, 4], fun idx => (idx 0 : Int)⟩ : ADTensor 3).dims i
                != (![1, 3, 4] : Fin 3 → Nat) i)).foldl float_sum_dim
            (⟨![2, 3, 4], fun idx => (idx 0 : Int)⟩ : ADTensor 3)))
    ∧ ((⟨![2, 3, 4], fun idx => (idx 0 : Int)⟩ : ADTensor 3).dims
          = ![2, 3, 4]
      ∧ ∃ r, broadcast_shape
          (⟨![2, 3, 4], fun idx => (idx 0 : Int)⟩ : ADTensor 3) ![1, 3, 4]
          = .ok r ∧ r.dims = ![1, 3, 4] ∧
          ∀ i j : Nat, r.data ![0, i, j]
            = ∑ k in Finset.range 2,
                (⟨![2, 3, 4], fun idx => (idx 0 : Int)⟩ : ADTensor 3).data
                  ![k, i, j])
    ∧ ((⟨![2, 3, 4], fun idx => (idx 0 : Int)⟩ : ADTensor 3).dims
          = ![2, 3, 4]
      ∧ ∃ r, broadcast_shape
          (⟨![2, 3, 4], fun idx => (idx 0 : Int)⟩ : ADTensor 3) ![1, 3, 1]
          = .ok r ∧ r.dims = ![1, 3, 1] ∧
          ∀ i : Nat, r.data ![0, i, 0]
            = ∑ k in Finset.range 2, ∑ l in Finset.range 4,
                (⟨![2, 3, 4], fun idx => (idx 0 : Int)⟩ : ADTensor 3).data
                  ![k, i, l]) :=
  ⟨⟨by decide, broadcast_shape_sums_mismatched_dims.1 3 _ _ (by decide)⟩,
   ⟨rfl, broadcast_shape_sums_mismatched_dims.2.1 _ rfl⟩,
   ⟨rfl, broadcast_shape_sums_mismatched_dims.2.2 _ rfl⟩⟩

end Autodiff

namespace Tiling2d

lemma write_within_vector_length (v i out_position : Nat)
    (results : Nat → Int) (results_pos_m : Nat) :
    (write_within_vector v i out_position results results_pos_m).length
      = 1 := by
  unfold write_within_vector; split <;> rfl

lemma mem_positions_iff (s : Store) (q : Nat) :
    q ∈ s.positions ↔ s.idx * s.width ≤ q ∧ q < s.idx * s.width + s.width := by
  unfold Store.positions
  rw [List.mem_map]
  constructor
  · rintro ⟨j, hj, rfl⟩
    rw [List.mem_range] at hj
    omega
  · rintro ⟨h1, h2⟩
    exact ⟨q - s.idx * s.width, List.mem_range.mpr (by omega), by omega⟩

lemma applyStores_eq_of_not_mem (l : List Store) :
    ∀ (buf : Nat → Int) (q : Nat), q ∉ l.flatMap Store.positions →
      applyStores buf l q = buf q := by
  induction l with
  | nil => intro buf q _; rfl
  | cons s t ih =>
      intro buf q hq
      rw [List.flatMap_cons, List.mem_append] at hq
      push_neg at hq
      have h2 : applyStores buf (s :: t) q = applyStores (applyStore buf s) t q :=
        rfl
      rw [h2, ih _ _ hq.2]
      unfold applyStore
      rw [if_neg]
      intro hcon
      exact hq.1 ((mem_positions_iff s q).mpr hcon)

lemma flatMap_wv_positions (v out_position : Nat) (results : Nat → Int)
    (results_pos_m : Nat) (hv : 0 < v) (hvp : v ∣ out_position) (n : Nat) :
    (((List.range n).flatMap (fun i =>
        write_within_vector v i out_position results results_pos_m)).flatMap
          Store.positions)
      = (List.range (n * v)).map (fun w => out_position + w) := by
  induction n with
  | zero => simp
  | succ n ih =>
      rw [List.range_succ, List.flatMap_append, List.flatMap_append, ih,
        (by ring : (n + 1) * v = n * v + v), List.range_add, List.map_append]
      congr 1
      simp only [List.flatMap_cons, List.flatMap_nil, List.append_nil,
        List.map_map]
      by_cases h1 : v = 1
      · subst h1
        unfold write_within_vector
        rw [if_pos rfl]
        simp only [List.flatMap_cons, List.flatMap_nil, List.append_nil,
          Store.positions, (rfl : List.range 1 = [0]), List.map_cons,
          List.map_nil, Function.comp]
        norm_num
        omega
      · unfold write_within_vector
        rw [if_neg h1]
        simp only [List.flatMap_cons, List.flatMap_nil, List.append_nil,
          Store.positions]
        refine List.map_congr_left (fun j hj => ?_)
        have hcan : out_position / v * v = out_position := Nat.div_mul_cancel hvp
        have : (n + out_position / v) * v = n * v + out_position / v * v :=
          Nat.add_mul n (out_position / v) v
        simp only [Function.comp]
        omega

lemma inner_loop_positions (out : OutTensor) (results : Nat → Int)
    (res_idx_m row col offset_output out_stride_row : Nat)
    (config : CubeTiling2dConfig) (hv : 0 < out.vec)
    (hvp : out.vec ∣ ((row + res_idx_m) * out_stride_row + col
      + offset_output)) :
    ((write_results_inner_loop out results res_idx_m row col offset_output
        out_stride_row config).flatMap Store.positions)
      = (List.range
          ((if config.check_n_bounds then
              (if out.dim_n > col then
                (min (out.dim_n - col) config.tile_size) / out.vec else 0)
            else config.tile_size / out.vec) * out.vec)).map
          (fun w => ((row + res_idx_m) * out_stride_row + col
            + offset_output) + w) := by
  unfold write_results_inner_loop
  by_cases hn : config.check_n_bounds
  · rw [if_pos hn, if_pos hn]
    exact flatMap_wv_positions out.vec _ results _ hv hvp _
  · rw [if_neg hn, if_neg hn]
    exact flatMap_wv_positions out.vec _ results _ hv hvp _

lemma write_results_positions_checked (out : OutTensor)
    (results : Nat → Int) (row col offset_output out_stride_row : Nat)
    (config : CubeTiling2dConfig) (h1 : config.tile_size ≠ 1)
    (hm : config.check_m_bounds = true) (hv : 0 < out.vec)
    (hvs : out.vec ∣ out_stride_row) (hvc : out.vec ∣ col)
    (hvo : out.vec ∣ offset_output) :
    ((write_results out results row col offset_output out_stride_row
        config).flatMap Store.positions)
      = (List.range
          (if out.dim_m > row then min (out.dim_m - row) config.tile_size
            else 0)).flatMap
          (fun m => (List.range
            ((if config.check_n_bounds then
              (if out.dim_n > col then
                (min (out.dim_n - col) config.tile_size) / out.vec else 0)
              else config.tile_size / out.vec) * out.vec)).map
            (fun w => ((row + m) * out_stride_row + col
              + offset_output) + w)) := by
  unfold write_results
  rw [if_neg h1, if_pos hm, List.flatMap_assoc]
  congr 1
  funext m
  exact inner_loop_positions out results m row col offset_output
    out_stride_row config hv
    (dvd_add (dvd_add (Dvd.dvd.mul_left hvs (row + m)) hvc) hvo)

lemma inner_loop_store_idx (out : OutTensor) (results : Nat → Int)
    (res_idx_m row col offset_output out_stride_row : Nat)
    (config : CubeTiling2dConfig) (hv : 0 < out.vec) :
    ∀ s ∈ write_results_inner_loop out results res_idx_m row col
        offset_output out_stride_row config,
      ∃ w, w < config.tile_size ∧
        s.idx = ((row + res_idx_m) * out_stride_row + (col + w)
          + offset_output) / out.vec := by
  intro s hs
  have hmem : ∃ i, i < config.tile_size / out.vec ∧
      s ∈ write_within_vector out.vec i
        ((row + res_idx_m) * out_stride_row + col + offset_output) results
        (res_idx_m * config.tile_size) := by
    unfold write_results_inner_loop at hs
    by_cases hn : config.check_n_bounds
    · rw [if_pos hn] at hs
      rw [List.mem_flatMap] at hs
      obtain ⟨i, hi, hsi⟩ := hs
      rw [List.mem_range] at hi
      refine ⟨i, lt_of_lt_of_le hi ?_, hsi⟩
      by_cases hc : out.dim_n > col
      · rw [if_pos hc]
        exact Nat.div_le_div_right (min_le_right _ _)
      · rw [if_neg hc]
        exact Nat.zero_le _
    · rw [if_neg hn] at hs
      rw [List.mem_flatMap] at hs
      obtain ⟨i, hi, hsi⟩ := hs
      rw [List.mem_range] at hi
      exact ⟨i, hi, hsi⟩
  obtain ⟨i, hi, hsi⟩ := hmem
  have hiv : (i + 1) * out.vec ≤ config.tile_size := by
    calc (i + 1) * out.vec ≤ config.tile_size / out.vec * out.vec :=
          Nat.mul_le_mul_right _ (by omega)
      _ ≤ config.tile_size := Nat.div_mul_le_self _ _
  unfold write_within_vector at hsi
  by_cases hv1 : out.vec = 1
  · rw [if_pos hv1] at hsi
    rw [List.mem_singleton] at hsi
    subst hsi
    rw [hv1] at hiv
    refine ⟨i, by omega, ?_⟩
    dsimp only
    rw [hv1, Nat.div_one]
    omega
  · rw [if_neg hv1] at hsi
    rw [List.mem_singleton] at hsi
    subst hsi
    have hsplit : i * out.vec + out.vec = (i + 1) * out.vec := by ring
    refine ⟨i * out.vec, by omega, ?_⟩
    dsimp only
    have harg : (row + res_idx_m) * out_stride_row + (col + i * out.vec)
        + offset_output
        = ((row + res_idx_m) * out_stride_row + col + offset_output)
          + i * out.vec := by omega
    rw [harg, Nat.add_mul_div_right _ _ hv]
    omega

/-- Claim C7: every store issued by `write_results` targets the storage index
obtained by dividing the destination flat index
`(row + m) * out_stride_row + (col + w) + offset_output` — for some tile-cell
offsets `m, w` below the tile size — by the vectorization factor of the
output (the scalar case being division by 1); this covers the tile-size-1
fast path (`m = w = 0`). -/
theorem store_index_formula (out : OutTensor) (results : Nat → Int)
    (row col offset_output out_stride_row : Nat)
    (config : CubeTiling2dConfig) (hv : 0 < out.vec) :
    ∀ s ∈ write_results out results row col offset_output out_stride_row
        config,
      ∃ m w, m < config.tile_size ∧ w < config.tile_size ∧
        s.idx = ((row + m) * out_stride_row + (col + w) + offset_output)
          / out.vec := by
  intro s hs
  unfold write_results at hs
  by_cases h1 : config.tile_size = 1
  · rw [if_pos h1] at hs
    rw [List.mem_singleton] at hs
    subst hs
    refine ⟨0, 0, by omega, by omega, ?_⟩
    norm_num
  · rw [if_neg h1] at hs
    by_cases h2 : config.check_m_bounds
    · rw [if_pos h2] at hs
      rw [List.mem_flatMap] at hs
      obtain ⟨m, hm, hsm⟩ := hs
      rw [List.mem_range] at hm
      have hmt : m < config.tile_size := by
        by_cases hr : out.dim_m > row
        · rw [if_pos hr] at hm
          omega
        · rw [if_neg hr] at hm
          omega
      obtain ⟨w, hw, hidx⟩ := inner_loop_store_idx out results m row col
        offset_output out_stride_row config hv s hsm
      exact ⟨m, w, hmt, hw, hidx⟩
    · rw [if_neg h2] at hs
      rw [List.mem_flatMap] at hs
      obtain ⟨m, hm, hsm⟩ := hs
      rw [List.mem_range] at hm
      obtain ⟨w, hw, hidx⟩ := inner_loop_store_idx out results m row col
        offset_output out_stride_row config hv s hsm
      exact ⟨m, w, hm, hw, hidx⟩

/-- Witness for C7 on the 8×8 output of the kernel unit test (tile size 4,
vectorization 4, tile placed at row 4, col 4). -/
theorem store_index_formula_witness :
    0 < (OutTensor.mk 8 8 4).vec ∧
    ∀ s ∈ write_results (OutTensor.mk 8 8 4) (fun n => (n : Int)) 4 4 0 8
        (CubeTiling2dConfig.mk 4 false false false),
      ∃ m w, m < (CubeTiling2dConfig.mk 4 false false false).tile_size ∧
        w < (CubeTiling2dConfig.mk 4 false false false).tile_size ∧
        s.idx = ((4 + m) * 8 + (4 + w) + 0)
          / (OutTensor.mk 8 8 4).vec :=
  ⟨by decide, store_index_formula (OutTensor.mk 8 8 4) (fun n => (n : Int))
    4 4 0 8 (CubeTiling2dConfig.mk 4 false false false) (by decide)⟩

/-- Claim C6: in the column-bounds-checked variant of
`write_results_inner_loop`, the number of vector-width groups written per row
(each group is exactly one store) is `min (extent_n - col) tile_size / v`
when `col < extent_n` and `0` when `col >= extent_n`; in particular when
`col >= extent_n` no store is issued and any output buffer is left entirely
unchanged. -/
theorem inner_loop_group_count (out : OutTensor) (results : Nat → Int)
    (res_idx_m row col offset_output out_stride_row : Nat)
    (config : CubeTiling2dConfig) (hn : config.check_n_bounds = true) :
    ((write_results_inner_loop out results res_idx_m row col offset_output
        out_stride_row config).length
      = (if out.dim_n > col then
          (min (out.dim_n - col) config.tile_size) / out.vec else 0))
    ∧ (out.dim_n ≤ col →
        (write_results_inner_loop out results res_idx_m row col
          offset_output out_stride_row config = [])
        ∧ ∀ buf : Nat → Int,
          applyStores buf (write_results_inner_loop out results res_idx_m
            row col offset_output out_stride_row config) = buf) := by
  constructor
  · unfold write_results_inner_loop
    rw [if_pos hn, List.length_flatMap,
      show (List.length ∘ fun i => write_within_vector out.vec i
          ((row + res_idx_m) * out_stride_row + col + offset_output) results
          (res_idx_m * config.tile_size)) = fun _ => 1 from
        funext fun i => write_within_vector_length _ _ _ _ _]
    simp
  · intro hcol
    have he : write_results_inner_loop out results res_idx_m row col
        offset_output out_stride_row config = [] := by
      unfold write_results_inner_loop
      rw [if_pos hn, if_neg (by omega : ¬ out.dim_n > col)]
      simp
    exact ⟨he, fun buf => by rw [he]; rfl⟩

/-- Witness for C6: with `extent_n = 4` and a tile of size 4 placed at
`col = 4` (the kernel's over-width unit test), zero groups are written and
the buffer is unchanged. -/
theorem inner_loop_group_count_witness :
    (CubeTiling2dConfig.mk 4 false false true).check_n_bounds = true ∧
    (((write_results_inner_loop (OutTensor.mk 8 4 4) (fun n => (n : Int))
        2 4 4 0 4 (CubeTiling2dConfig.mk 4 false false true)).length
      = (if (OutTensor.mk 8 4 4).dim_n > 4 then
          (min ((OutTensor.mk 8 4 4).dim_n - 4)
            (CubeTiling2dConfig.mk 4 false false true).tile_size)
            / (OutTensor.mk 8 4 4).vec else 0))
    ∧ ((OutTensor.mk 8 4 4).dim_n ≤ 4 →
        (write_results_inner_loop (OutTensor.mk 8 4 4) (fun n => (n : Int))
          2 4 4 0 4 (CubeTiling2dConfig.mk 4 false false true) = [])
        ∧ ∀ buf : Nat → Int,
          applyStores buf (write_results_inner_loop (OutTensor.mk 8 4 4)
            (fun n => (n : Int)) 2 4 4 0 4
            (CubeTiling2dConfig.mk 4 false false true)) = buf)) :=
  ⟨rfl, inner_loop_group_count (OutTensor.mk 8 4 4) (fun n => (n : Int))
    2 4 4 0 4 (CubeTiling2dConfig.mk 4 false false true) rfl⟩

/-- Counterexample for C4 as stated: with bounds checking disabled in the
configuration (`check_m_bounds = check_n_bounds = false`), a 2×2 tile written
at `(row, col) = (0, 0)` into a 1×2 output (stride 2, vectorization 1)
writes the scalar cells 2 and 3, which lie beyond the extents — so the claim
does not hold for every bounds-check configuration. -/
theorem write_results_out_of_extent_counterexample :
    ¬ (∀ q ∈ (write_results (OutTensor.mk 1 2 1) (fun _ => (0 : Int))
          0 0 0 2 (CubeTiling2dConfig.mk 2 false false false)).flatMap
          Store.positions,
        InExtent (OutTensor.mk 1 2 1) 0 2 q) := by decide

/-- Claim C4 (amended): for the non-scalar path (`tile_size ≠ 1`) with both
bounds checks enabled and vector-aligned stride, column and offset, every
scalar cell written by `write_results` lies inside the true output extents:
it is `offset + r * stride + c` with `r < extent_m` and `c < extent_n` —
out-of-extent rows and lanes are never written. -/
theorem write_results_in_extent_of_checked (out : OutTensor)
    (results : Nat → Int) (row col offset_output out_stride_row : Nat)
    (config : CubeTiling2dConfig) (h1 : config.tile_size ≠ 1)
    (hm : config.check_m_bounds = true) (hn : config.check_n_bounds = true)
    (hv : 0 < out.vec) (hvs : out.vec ∣ out_stride_row)
    (hvc : out.vec ∣ col) (hvo : out.vec ∣ offset_output) :
    ∀ q ∈ (write_results out results row col offset_output out_stride_row
        config).flatMap Store.positions,
      InExtent out offset_output out_stride_row q := by
  intro q hq
  rw [write_results_positions_checked out results row col offset_output
    out_stride_row config h1 hm hv hvs hvc hvo] at hq
  rw [List.mem_flatMap] at hq
  obtain ⟨m, hmem, hq⟩ := hq
  rw [List.mem_range] at hmem
  rw [List.mem_map] at hq
  obtain ⟨w, hw, rfl⟩ := hq
  rw [List.mem_range] at hw
  by_cases hrow : out.dim_m > row
  · rw [if_pos hrow] at hmem
    rw [if_pos hn] at hw
    by_cases hcol : out.dim_n > col
    · rw [if_pos hcol] at hw
      have hwb : w < out.dim_n - col := by
        have h2 : min (out.dim_n - col) config.tile_size / out.vec * out.vec
            ≤ min (out.dim_n - col) config.tile_size :=
          Nat.div_mul_le_self _ _
        have h3 : min (out.dim_n - col) config.tile_size
            ≤ out.dim_n - col := min_le_left _ _
        omega
      refine ⟨row + m, Finset.mem_range.mpr (by omega),
        col + w, Finset.mem_range.mpr (by omega), by omega⟩
    · rw [if_neg hcol] at hw
      omega
  · rw [if_neg hrow] at hmem
    omega

/-- Witness for the amended C4 on the partial-tile unit test: 6×8 output,
vectorization 4, tile size 4 at `(row, col) = (4, 4)`, both checks on. -/
theorem write_results_in_extent_witness :
    ((CubeTiling2dConfig.mk 4 false true true).tile_size ≠ 1
      ∧ (CubeTiling2dConfig.mk 4 false true true).check_m_bounds = true
      ∧ (CubeTiling2dConfig.mk 4 false true true).check_n_bounds = true
      ∧ 0 < (OutTensor.mk 6 8 4).vec
      ∧ (OutTensor.mk 6 8 4).vec ∣ 8 ∧ (OutTensor.mk 6 8 4).vec ∣ 4
      ∧ (OutTensor.mk 6 8 4).vec ∣ 0)
    ∧ ∀ q ∈ (write_results (OutTensor.mk 6 8 4) (fun n => (n : Int))
        4 4 0 8 (CubeTiling2dConfig.mk 4 false true true)).flatMap
        Store.positions,
      InExtent (OutTensor.mk 6 8 4) 0 8 q :=
  ⟨by decide,
   write_results_in_extent_of_checked (OutTensor.mk 6 8 4)
     (fun n => (n : Int)) 4 4 0 8 (CubeTiling2dConfig.mk 4 false true true)
     (by decide) rfl rfl (by decide) (by decide) (by decide) (by decide)⟩

lemma row_of_pos (r out_stride_row col offset_output w : Nat)
    (hcw : col + w < out_stride_row) :
    ((r * out_stride_row + col + offset_output) + w - offset_output)
      / out_stride_row = r := by
  have h1 : (r * out_stride_row + col + offset_output) + w - offset_output
      = out_stride_row * r + (col + w) := by
    rw [Nat.mul_comm out_stride_row r]; omega
  rw [h1, Nat.mul_add_div (by omega : 0 < out_stride_row),
    Nat.div_eq_of_lt hcw]
  omega

lemma write_results_mem_pos (out : OutTensor) (results : Nat → Int)
    (row col offset_output out_stride_row : Nat)
    (config : CubeTiling2dConfig) (h1 : config.tile_size ≠ 1)
    (hm : config.check_m_bounds = true) (hv : 0 < out.vec)
    (hvt : out.vec ∣ config.tile_size) (hvs : out.vec ∣ out_stride_row)
    (hvc : out.vec ∣ col) (hvo : out.vec ∣ offset_output)
    (hcol : col + config.tile_size ≤ out.dim_n) :
    ∀ q, q ∈ (write_results out results row col offset_output
        out_stride_row config).flatMap Store.positions
      ↔ ∃ m, m < (if out.dim_m > row
            then min (out.dim_m - row) config.tile_size else 0)
          ∧ ∃ w, w < config.tile_size
          ∧ q = ((row + m) * out_stride_row + col + offset_output) + w := by
  have hNL : (if out.dim_m > row
        then min (out.dim_m - row) config.tile_size else 0) ≠ 0 →
      ((if config.check_n_bounds then
          (if out.dim_n > col then
            (min (out.dim_n - col) config.tile_size) / out.vec else 0)
        else config.tile_size / out.vec) * out.vec) = config.tile_size := by
    intro hK0
    have htile : 1 ≤ config.tile_size := by
      by_contra h
      push_neg at h
      apply hK0
      split <;> omega
    have hcol' : out.dim_n > col := by omega
    have hmin : min (out.dim_n - col) config.tile_size = config.tile_size :=
      min_eq_right (by omega)
    have hdv : config.tile_size / out.vec * out.vec = config.tile_size :=
      Nat.div_mul_cancel hvt
    by_cases hn : config.check_n_bounds
    · rw [if_pos hn, if_pos hcol', hmin, hdv]
    · rw [if_neg hn, hdv]
  intro q
  rw [write_results_positions_checked out results row col offset_output
    out_stride_row config h1 hm hv hvs hvc hvo, List.mem_flatMap]
  constructor
  · rintro ⟨m, hmr, hq⟩
    rw [List.mem_range] at hmr
    rw [List.mem_map] at hq
    obtain ⟨w, hw, rfl⟩ := hq
    rw [List.mem_range] at hw
    rw [hNL (by omega)] at hw
    exact ⟨m, hmr, w, hw, rfl⟩
  · rintro ⟨m, hmr, w, hw, rfl⟩
    refine ⟨m, List.mem_range.mpr hmr,
      List.mem_map.mpr ⟨w, List.mem_range.mpr ?_, rfl⟩⟩
    rw [hNL (by omega)]
    exact hw

/-- Claim C5: in the row-bounds-checked, non-scalar variant of
`write_results` (with in-bounds columns, vector-aligned quantities, and the
row stride at least the column extent), the set of distinct output rows
receiving writes is `{row, ..., row + k - 1}` for
`k = min (extent_m - row) tile_size` when `row < extent_m` and is empty when
`row >= extent_m`; hence exactly `k` tile rows are written, and every scalar
cell at or beyond row `extent_m` is left unchanged by applying the stores. -/
theorem write_results_row_count (out : OutTensor) (results : Nat → Int)
    (row col offset_output out_stride_row : Nat)
    (config : CubeTiling2dConfig) (h1 : config.tile_size ≠ 1)
    (hm : config.check_m_bounds = true) (hv : 0 < out.vec)
    (hvt : out.vec ∣ config.tile_size) (hvs : out.vec ∣ out_stride_row)
    (hvc : out.vec ∣ col) (hvo : out.vec ∣ offset_output)
    (hcol : col + config.tile_size ≤ out.dim_n)
    (hsn : out.dim_n ≤ out_stride_row) :
    ((((write_results out results row col offset_output out_stride_row
        config).flatMap Store.positions).map
        (fun q => (q - offset_output) / out_stride_row)).toFinset
      = Finset.image (fun m => row + m)
          (Finset.range (if out.dim_m > row
            then min (out.dim_m - row) config.tile_size else 0)))
    ∧ ((((write_results out results row col offset_output out_stride_row
        config).flatMap Store.positions).map
        (fun q => (q - offset_output) / out_stride_row)).toFinset.card
      = (if out.dim_m > row then min (out.dim_m - row) config.tile_size
          else 0))
    ∧ (∀ (buf : Nat → Int) (q : Nat),
        offset_output + out.dim_m * out_stride_row ≤ q →
        applyStores buf (write_results out results row col offset_output
          out_stride_row config) q = buf q) := by
  have hmem := write_results_mem_pos out results row col offset_output
    out_stride_row config h1 hm hv hvt hvs hvc hvo hcol
  have hset : (((write_results out results row col offset_output
      out_stride_row config).flatMap Store.positions).map
      (fun q => (q - offset_output) / out_stride_row)).toFinset
      = Finset.image (fun m => row + m)
          (Finset.range (if out.dim_m > row
            then min (out.dim_m - row) config.tile_size else 0)) := by
    ext r
    rw [List.mem_toFinset, List.mem_map, Finset.mem_image]
    constructor
    · rintro ⟨q, hq, rfl⟩
      obtain ⟨m, hmr, w, hw, rfl⟩ := (hmem q).mp hq
      exact ⟨m, Finset.mem_range.mpr hmr,
        (row_of_pos (row + m) out_stride_row col offset_output w
          (by omega)).symm⟩
    · rintro ⟨m, hmr', rfl⟩
      rw [Finset.mem_range] at hmr'
      have htile : 1 ≤ config.tile_size := by
        have hle : (if out.dim_m > row
            then min (out.dim_m - row) config.tile_size else 0)
            ≤ config.tile_size := by split <;> omega
        omega
      exact ⟨((row + m) * out_stride_row + col + offset_output) + 0,
        (hmem _).mpr ⟨m, hmr', 0, by omega, rfl⟩,
        row_of_pos (row + m) out_stride_row col offset_output 0 (by omega)⟩
  refine ⟨hset, ?_, ?_⟩
  · rw [hset, Finset.card_image_of_injective _
      (fun a b h => by dsimp only at h; omega :
        Function.Injective (fun m => row + m)),
      Finset.card_range]
  · intro buf q hq
    apply applyStores_eq_of_not_mem
    intro hqmem
    obtain ⟨m, hmr, w, hw, heq⟩ := (hmem q).mp hqmem
    have hrow : out.dim_m > row := by
      by_contra h
      rw [if_neg h] at hmr
      omega
    rw [if_pos hrow] at hmr
    have hr1 : row + m + 1 ≤ out.dim_m := by omega
    have hr2 : (row + m + 1) * out_stride_row
        ≤ out.dim_m * out_stride_row := Nat.mul_le_mul_right _ hr1
    have hr3 : (row + m + 1) * out_stride_row
        = (row + m) * out_stride_row + out_stride_row := by ring
    omega

/-- Witness for C5 on the partial-tile unit test: 6-row output
(`extent_m = 6`), tile of size 4 placed at row 4 (columns 4..8 in an 8-wide
row, stride 8, vectorization 4, row check on) — exactly
`min (6 - 4) 4 = 2` rows are written and cells at or beyond row 6 are
untouched. -/
theorem write_results_row_count_witness :
    ((CubeTiling2dConfig.mk 4 false true false).tile_size ≠ 1
      ∧ (CubeTiling2dConfig.mk 4 false true false).check_m_bounds = true
      ∧ 0 < (OutTensor.mk 6 8 4).vec
      ∧ (OutTensor.mk 6 8 4).vec
          ∣ (CubeTiling2dConfig.mk 4 false true false).tile_size
      ∧ (OutTensor.mk 6 8 4).vec ∣ 8
      ∧ (OutTensor.mk 6 8 4).vec ∣ 4
      ∧ (OutTensor.mk 6 8 4).vec ∣ 0
      ∧ 4 + (CubeTiling2dConfig.mk 4 false true false).tile_size
          ≤ (OutTensor.mk 6 8 4).dim_n
      ∧ (OutTensor.mk 6 8 4).dim_n ≤ 8)
    ∧ ((((write_results (OutTensor.mk 6 8 4) (fun n => (n : Int)) 4 4 0 8
        (CubeTiling2dConfig.mk 4 false true false)).flatMap
        Store.positions).map (fun q => (q - 0) / 8)).toFinset
      = Finset.image (fun m => 4 + m)
          (Finset.range (if (OutTensor.mk 6 8 4).dim_m > 4
            then min ((OutTensor.mk 6 8 4).dim_m - 4)
              (CubeTiling2dConfig.mk 4 false true false).tile_size else 0)))
    ∧ ((((write_results (OutTensor.mk 6 8 4) (fun n => (n : Int)) 4 4 0 8
        (CubeTiling2dConfig.mk 4 false true false)).flatMap
        Store.positions).map (fun q => (q - 0) / 8)).toFinset.card
      = (if (OutTensor.mk 6 8 4).dim_m > 4
          then min ((OutTensor.mk 6 8 4).dim_m - 4)
            (CubeTiling2dConfig.mk 4 false true false).tile_size else 0))
    ∧ (∀ (buf : Nat → Int) (q : Nat),
        0 + (OutTensor.mk 6 8 4).dim_m * 8 ≤ q →
        applyStores buf (write_results (OutTensor.mk 6 8 4)
          (fun n => (n : Int)) 4 4 0 8
          (CubeTiling2dConfig.mk 4 false true false)) q = buf q) :=
  ⟨by decide,
   (write_results_row_count (OutTensor.mk 6 8 4) (fun n => (n : Int))
      4 4 0 8 (CubeTiling2dConfig.mk 4 false true false) (by decide) rfl
      (by decide) (by decide) (by decide) (by decide) (by decide)
      (by decide) (by decide)).1,
   (write_results_row_count (OutTensor.mk 6 8 4) (fun n => (n : Int))
      4 4 0 8 (CubeTiling2dConfig.mk 4 false true false) (by decide) rfl
      (by decide) (by decide) (by decide) (by decide) (by decide)
      (by decide) (by decide)).2.1,
   (write_results_row_count (OutTensor.mk 6 8 4) (fun n => (n : Int))
      4 4 0 8 (CubeTiling2dConfig.mk 4 false true false) (by decide) rfl
      (by decide) (by decide) (by decide) (by decide) (by decide)
      (by decide) (by decide)).2.2⟩

end Tiling2d
